import Mathlib

/-!
# Verification of the TuluNad Store backend order/cart core

Shallow embedding of the order-placement workflow, the inventory
decrement, the cart model and the order-history readers of the
TuluNad Store backend (Express + MySQL), together with proofs of the
specification's claims about them.

Conventions of the embedding:
* SQL tables are lists of row structures; `AUTO_INCREMENT` ids are
  modelled by a `next…Id` counter carried alongside the table.
* Monetary amounts and quantities are `Int` (JS numbers as used by the
  code; fractional parts play no role in any claim).
* A thrown JS `Error` is an `Except String` value carrying
  `error.message`.
* The MySQL transaction held by a pooled connection is modelled by an
  explicit working copy of the tables the transaction writes
  (`orders`, `order_items`, `products`); `commit` publishes the copy,
  `rollback` discards it.  Queries issued on the shared pool (`db`)
  rather than on the connection act directly on the committed state.
-/

/-- A row of the `products` table (the columns the core reads). -/
structure ProductRow where
  id : Nat
  name : String
  image_id : String
  stock_quantity : Int
  deriving Repr, DecidableEq

/-- A row of the `orders` table. -/
structure OrderRow where
  id : Nat
  user_id : Nat
  total_amount : Int
  shipping_address : String
  status : String
  order_date : Int
  deriving Repr, DecidableEq

/-- A row of the `order_items` table. -/
structure OrderItemRow where
  order_id : Nat
  product_id : Nat
  quantity : Int
  price : Int
  deriving Repr, DecidableEq

/-- A row of the `cart_items` table. -/
structure CartItemRow where
  id : Nat
  user_id : Nat
  product_id : Nat
  quantity : Int
  deriving Repr, DecidableEq

/-- A row of the `users` table (the columns the order readers join). -/
structure UserRow where
  id : Nat
  username : String
  email : String
  deriving Repr, DecidableEq

/-- The committed database state. -/
structure DB where
  users : List UserRow
  products : List ProductRow
  orders : List OrderRow
  orderItems : List OrderItemRow
  cartItems : List CartItemRow
  nextOrderId : Nat
  nextCartItemId : Nat
  deriving Repr, DecidableEq

/-- The table produced by the conditional
`UPDATE products SET stock_quantity = stock_quantity - ? WHERE id = ?
AND stock_quantity >= ?`: every row matching the `WHERE` clause is
decremented, the rest are untouched. -/
def deductUpdate (productId : Nat) (quantity : Int)
    (products : List ProductRow) : List ProductRow :=
  products.map (fun p =>
    if p.id == productId && quantity ≤ p.stock_quantity then
      { p with stock_quantity := p.stock_quantity - quantity }
    else p)

/-- `affectedRows` of that `UPDATE`: the number of rows matching its
`WHERE` clause. -/
def deductMatched (productId : Nat) (quantity : Int)
    (products : List ProductRow) : Nat :=
  (products.filter (fun p => p.id == productId && quantity ≤ p.stock_quantity)).length

/-- `productController.deductProductStock`: runs the single conditional
`UPDATE` above and throws
`Insufficient stock or product not found for product ID: <id>` when
`result.affectedRows === 0`.  Returns the thrown message (as
`.error`) or `.ok ()`, paired with the table after the update. -/
def deductProductStock (productId : Nat) (quantity : Int)
    (products : List ProductRow) : Except String Unit × List ProductRow :=
  if deductMatched productId quantity products == 0 then
    (.error ("Insufficient stock or product not found for product ID: "
      ++ toString productId), deductUpdate productId quantity products)
  else (.ok (), deductUpdate productId quantity products)

/-- Stock of the product with the given id, read off the table
(`find?` returns the first matching row, as `SELECT` would). -/
def stockOf (productId : Nat) (products : List ProductRow) : Option Int :=
  (products.find? (fun p => p.id == productId)).map (·.stock_quantity)

example :
    deductProductStock 1 3 [⟨1, "a", "i", 5⟩] =
      (.ok (), [⟨1, "a", "i", 2⟩]) := rfl

example :
    (deductProductStock 1 3 [⟨1, "a", "i", 2⟩]).2 = [⟨1, "a", "i", 2⟩] := by
  decide

example :
    (deductProductStock 7 3 [⟨1, "a", "i", 5⟩]).1 =
      .error "Insufficient stock or product not found for product ID: 7" := rfl

/-- The second component of `deductProductStock` is always the updated
table. -/
theorem deduct_snd (pid : Nat) (q : Int) (products : List ProductRow) :
    (deductProductStock pid q products).2 = deductUpdate pid q products := by
  unfold deductProductStock
  split <;> rfl

/-- Ids are untouched by the conditional update. -/
theorem deduct_ids (pid : Nat) (q : Int) (products : List ProductRow) :
    (deductProductStock pid q products).2.map (·.id) = products.map (·.id) := by
  rw [deduct_snd]
  unfold deductUpdate
  simp only [List.map_map]
  refine List.map_congr_left (fun p _ => ?_)
  simp only [Function.comp]
  split <;> rfl

theorem find?_map_of_id (f : ProductRow → ProductRow)
    (hf : ∀ p, (f p).id = p.id) (pid : Nat) (l : List ProductRow) :
    (l.map f).find? (fun p => p.id == pid) =
      (l.find? (fun p => p.id == pid)).map f := by
  induction l with
  | nil => simp
  | cons p l ih =>
    by_cases h : p.id == pid
    · simp [List.find?_cons, hf, h]
    · simp only [List.map_cons, List.find?_cons, hf, h]
      exact ih

/-- Effect of the conditional update on the stock read back for the
targeted product: decremented exactly when the guard held. -/
theorem stockOf_deduct (pid : Nat) (q s : Int) (products : List ProductRow)
    (h : stockOf pid products = some s) :
    stockOf pid (deductProductStock pid q products).2 =
      some (if q ≤ s then s - q else s) := by
  obtain ⟨p0, hfind, hstock⟩ :
      ∃ p0, products.find? (fun p => p.id == pid) = some p0 ∧
        p0.stock_quantity = s := by
    unfold stockOf at h
    cases hf : products.find? (fun p => p.id == pid) with
    | none => rw [hf] at h; simp at h
    | some p0 => rw [hf] at h; simp at h; exact ⟨p0, rfl, h⟩
  have hid0 := List.find?_some hfind
  have hid : p0.id = pid := by simpa using hid0
  have hupd : (deductProductStock pid q products).2 =
      products.map (fun p =>
        if p.id == pid && q ≤ p.stock_quantity then
          { p with stock_quantity := p.stock_quantity - q }
        else p) := deduct_snd pid q products
  have hfp : ∀ p : ProductRow,
      ((fun p => if p.id == pid && q ≤ p.stock_quantity then
          { p with stock_quantity := p.stock_quantity - q }
        else p) p).id = p.id := by
    intro p; dsimp only; split <;> rfl
  unfold stockOf
  rw [hupd, find?_map_of_id _ hfp, hfind]
  by_cases hq : q ≤ s
  · simp [hid, hstock, hq]
  · simp [hid, hstock, hq]

/-- The conditional update succeeds (`affectedRows ≠ 0`) iff some row
matches the guard. -/
theorem deduct_ok_iff (pid : Nat) (q : Int) (products : List ProductRow) :
    (deductProductStock pid q products).1 = .ok () ↔
      ∃ p ∈ products, p.id = pid ∧ q ≤ p.stock_quantity := by
  unfold deductProductStock deductMatched
  split
  case isTrue h =>
    simp only [beq_iff_eq, List.length_eq_zero, List.filter_eq_nil_iff] at h
    constructor
    · intro habs; exact absurd habs (by simp)
    · rintro ⟨p, hp, hid, hq⟩
      exact absurd (by simp [hid, hq] : (p.id == pid && decide (q ≤ p.stock_quantity)) = true) (h p hp)
  case isFalse h =>
    simp only [beq_iff_eq, ne_eq, List.length_eq_zero, List.filter_eq_nil_iff] at h
    push_neg at h
    obtain ⟨p, hp, hcond⟩ := h
    simp only [Bool.and_eq_true, beq_iff_eq, decide_eq_true_eq] at hcond
    exact ⟨fun _ => ⟨p, hp, hcond.1, hcond.2⟩, fun _ => rfl⟩

/-- Unpack a defined `stockOf` read: the first row with the given id. -/
theorem stockOf_some (pid : Nat) (s : Int) (products : List ProductRow)
    (h : stockOf pid products = some s) :
    ∃ p0, products.find? (fun p => p.id == pid) = some p0 ∧
      p0 ∈ products ∧ p0.id = pid ∧ p0.stock_quantity = s := by
  unfold stockOf at h
  cases hf : products.find? (fun p => p.id == pid) with
  | none => rw [hf] at h; simp at h
  | some p0 =>
    rw [hf] at h
    simp only [Option.map] at h
    injection h with h
    have hid : p0.id = pid := by simpa using List.find?_some hf
    exact ⟨p0, rfl, List.mem_of_find?_eq_some hf, hid, h⟩

/-- Row-wise non-negativity of `stock_quantity` is preserved by the
conditional update, whatever the requested quantity. -/
theorem deduct_nonneg (pid : Nat) (q : Int) (products : List ProductRow)
    (h : ∀ p ∈ products, 0 ≤ p.stock_quantity) :
    ∀ p2 ∈ (deductProductStock pid q products).2, 0 ≤ p2.stock_quantity := by
  intro p2 hp2
  rw [deduct_snd] at hp2
  unfold deductUpdate at hp2
  simp only [List.mem_map] at hp2
  obtain ⟨p, hp, rfl⟩ := hp2
  split
  case isTrue hc =>
    simp only [Bool.and_eq_true, beq_iff_eq, decide_eq_true_eq] at hc
    exact sub_nonneg.mpr hc.2
  case isFalse hc => exact h p hp

/-- With distinct product ids (`products.id` is a primary key), the
decrement succeeds exactly when the product's current stock covers the
requested quantity. -/
theorem deduct_ok_iff_stock (pid : Nat) (q s : Int) (products : List ProductRow)
    (hnd : (products.map (·.id)).Nodup)
    (h : stockOf pid products = some s) :
    (deductProductStock pid q products).1 = .ok () ↔ q ≤ s := by
  obtain ⟨p0, hfind, hmem, hid, hstock⟩ := stockOf_some pid s products h
  rw [deduct_ok_iff]
  constructor
  · rintro ⟨p, hp, hpid, hq⟩
    have : p = p0 := List.inj_on_of_nodup_map hnd hp hmem (by rw [hpid, hid])
    rw [this, hstock] at hq
    exact hq
  · intro hq
    exact ⟨p0, hmem, hid, by rw [hstock]; exact hq⟩

theorem except_isOk_iff (e : Except String Unit) :
    e.isOk = true ↔ e = .ok () := by
  cases e with
  | ok u => cases u; simp [Except.isOk, Except.toBool]
  | error m => simp [Except.isOk, Except.toBool]

/-- A sequence of `decrementStock` calls against one product id:
returns the total quantity of the successful calls together with the
final table. -/
def runDecrements (pid : Nat) (calls : List Int)
    (products : List ProductRow) : Int × List ProductRow :=
  match calls with
  | [] => (0, products)
  | q :: rest =>
    if (deductProductStock pid q products).1.isOk then
      (q + (runDecrements pid rest (deductProductStock pid q products).2).1,
        (runDecrements pid rest (deductProductStock pid q products).2).2)
    else runDecrements pid rest (deductProductStock pid q products).2

/-- Accounting invariant of `runDecrements`: the successful total plus
the remaining stock is the initial stock, and the remaining stock is
never negative. -/
theorem runDecrements_spec (pid : Nat) (calls : List Int) :
    ∀ (products : List ProductRow) (s : Int),
      (products.map (·.id)).Nodup →
      stockOf pid products = some s → 0 ≤ s →
      ∃ s2, stockOf pid (runDecrements pid calls products).2 = some s2 ∧
        0 ≤ s2 ∧ (runDecrements pid calls products).1 + s2 = s := by
  induction calls with
  | nil =>
    intro products s hnd hs h0
    exact ⟨s, by simpa [runDecrements] using hs, h0, by simp [runDecrements]⟩
  | cons q rest ih =>
    intro products s hnd hs h0
    have hnd2 : ((deductProductStock pid q products).2.map (·.id)).Nodup := by
      rw [deduct_ids]; exact hnd
    have hsd := stockOf_deduct pid q s products hs
    by_cases hq : q ≤ s
    · have hok : (deductProductStock pid q products).1 = .ok () :=
        (deduct_ok_iff_stock pid q s products hnd hs).mpr hq
      have hs2 : stockOf pid (deductProductStock pid q products).2 = some (s - q) := by
        simpa [hq] using hsd
      obtain ⟨s2, ha, hb, hc⟩ := ih _ (s - q) hnd2 hs2 (by linarith)
      have hisOk : (deductProductStock pid q products).1.isOk = true :=
        (except_isOk_iff _).mpr hok
      refine ⟨s2, ?_, hb, ?_⟩
      · simpa [runDecrements, hisOk] using ha
      · simp only [runDecrements, hisOk, if_true]
        linarith
    · have hnok : ¬ (deductProductStock pid q products).1 = .ok () := by
        rw [deduct_ok_iff_stock pid q s products hnd hs]; exact hq
      have hisOk : (deductProductStock pid q products).1.isOk = false := by
        rcases e : (deductProductStock pid q products).1 with m | u
        · rfl
        · cases u; exact absurd e hnok
      have hs2 : stockOf pid (deductProductStock pid q products).2 = some s := by
        simpa [hq] using hsd
      obtain ⟨s2, ha, hb, hc⟩ := ih _ s hnd2 hs2 h0
      refine ⟨s2, ?_, hb, ?_⟩
      · simpa [runDecrements, hisOk] using ha
      · simpa [runDecrements, hisOk] using hc

/-- C4: `decrementStock(productId, quantity)` decreases the product's
`stockQuantity` by exactly `quantity` iff the product exists with
current stock at least `quantity`; otherwise (absent or insufficient,
undistinguished) it returns the single `InsufficientStockError`
message and leaves every product's stock unchanged. -/
theorem C4_conditional_decrement (pid : Nat) (q s : Int)
    (products : List ProductRow)
    (hnd : (products.map (·.id)).Nodup) :
    (stockOf pid products = some s → q ≤ s →
      (deductProductStock pid q products).1 = .ok () ∧
      (deductProductStock pid q products).2 =
        products.map (fun p => if p.id = pid then
            { p with stock_quantity := p.stock_quantity - q } else p) ∧
      stockOf pid (deductProductStock pid q products).2 = some (s - q)) ∧
    ((¬ ∃ p ∈ products, p.id = pid ∧ q ≤ p.stock_quantity) →
      (deductProductStock pid q products).1 =
        .error ("Insufficient stock or product not found for product ID: "
          ++ toString pid) ∧
      (deductProductStock pid q products).2 = products) := by
  constructor
  · intro hs hq
    obtain ⟨p0, hfind, hmem, hid, hstock⟩ := stockOf_some pid s products hs
    refine ⟨(deduct_ok_iff_stock pid q s products hnd hs).mpr hq, ?_, ?_⟩
    · rw [deduct_snd]
      unfold deductUpdate
      refine List.map_congr_left (fun p hp => ?_)
      by_cases hpid : p.id = pid
      · have hpp0 : p = p0 :=
          List.inj_on_of_nodup_map hnd hp hmem (by rw [hpid, hid])
        have hqs : q ≤ p.stock_quantity := by rw [hpp0, hstock]; exact hq
        simp [hpid, hqs]
      · simp [hpid]
    · have := stockOf_deduct pid q s products hs
      simpa [hq] using this
  · intro hnone
    have hmz : deductMatched pid q products = 0 := by
      unfold deductMatched
      rw [List.length_eq_zero, List.filter_eq_nil_iff]
      intro p hp
      simp only [Bool.and_eq_true, beq_iff_eq, decide_eq_true_eq, not_and]
      intro hpid hq
      exact hnone ⟨p, hp, hpid, hq⟩
    refine ⟨by simp [deductProductStock, hmz], ?_⟩
    rw [deduct_snd]
    unfold deductUpdate
    have heach : ∀ p ∈ products,
        (if p.id == pid && q ≤ p.stock_quantity then
          { p with stock_quantity := p.stock_quantity - q } else p) = p := by
      intro p hp
      have : ¬ (p.id = pid ∧ q ≤ p.stock_quantity) :=
        fun hc => hnone ⟨p, hp, hc.1, hc.2⟩
      split
      case isTrue hc =>
        simp only [Bool.and_eq_true, beq_iff_eq, decide_eq_true_eq] at hc
        exact absurd hc this
      case isFalse hc => rfl
    rw [List.map_congr_left heach]
    exact List.map_id products

/-- Witness for C4 at a concrete table (product 1, stock 5, ask 3). -/
theorem C4_conditional_decrement_witness :
    (deductProductStock 1 3 [⟨1, "a", "i", 5⟩]).1 = .ok () ∧
    (deductProductStock 1 3 [⟨1, "a", "i", 5⟩]).2 =
      [(⟨1, "a", "i", 5⟩ : ProductRow)].map (fun p => if p.id = 1 then
          { p with stock_quantity := p.stock_quantity - 3 } else p) ∧
    stockOf 1 (deductProductStock 1 3 [⟨1, "a", "i", 5⟩]).2 = some (5 - 3) :=
  (C4_conditional_decrement 1 3 5 [⟨1, "a", "i", 5⟩] (by decide)).1
    (by decide) (by decide)

/-- C3: against a product with initial stock `S ≥ 0`, any sequence of
`decrementStock` calls has successful total at most `S`, the stock is
never observed negative, and row-wise non-negativity is preserved by
every single `decrementStock` operation. -/
theorem C3_nonneg_stock (pid : Nat) (calls : List Int)
    (products : List ProductRow) (S : Int)
    (hnd : (products.map (·.id)).Nodup)
    (hs : stockOf pid products = some S) (h0 : 0 ≤ S) :
    (runDecrements pid calls products).1 ≤ S ∧
    (∃ s2, stockOf pid (runDecrements pid calls products).2 = some s2 ∧
      0 ≤ s2 ∧ (runDecrements pid calls products).1 + s2 = S) ∧
    (∀ (q : Int) (ps : List ProductRow),
      (∀ p ∈ ps, 0 ≤ p.stock_quantity) →
      ∀ p2 ∈ (deductProductStock pid q ps).2, 0 ≤ p2.stock_quantity) := by
  obtain ⟨s2, ha, hb, hc⟩ := runDecrements_spec pid calls products S hnd hs h0
  exact ⟨by linarith, ⟨s2, ha, hb, hc⟩, fun q ps h => deduct_nonneg pid q ps h⟩

/-- Witness for C3: stock 5, two calls of 3 (second one fails). -/
theorem C3_nonneg_stock_witness :
    (runDecrements 1 [3, 3] [⟨1, "a", "i", 5⟩]).1 ≤ 5 :=
  (C3_nonneg_stock 1 [3, 3] [⟨1, "a", "i", 5⟩] 5 (by decide) (by decide)
    (by decide)).1

/-- `cartModel.addItem`: `SELECT id, quantity FROM cart_items WHERE
user_id = ? AND product_id = ?`; if a row exists, `UPDATE cart_items
SET quantity = existing + quantity WHERE id = existingItems[0].id`,
else `INSERT`.  Returns the table, the next `AUTO_INCREMENT` id, and
the reported `cartItemId`. -/
def addItem (userId productId : Nat) (quantity : Int)
    (cart : List CartItemRow) (nextId : Nat) :
    List CartItemRow × Nat × Nat :=
  match cart.filter (fun c => c.user_id == userId && c.product_id == productId) with
  | [] => (cart ++ [⟨nextId, userId, productId, quantity⟩], nextId + 1, nextId)
  | e :: _ =>
    (cart.map (fun c =>
      if c.id == e.id then { c with quantity := e.quantity + quantity } else c),
     nextId, e.id)

/-- Table after `UPDATE cart_items SET quantity = ? WHERE id = ? AND
user_id = ?`. -/
def cartUpdateRun (cartItemId userId : Nat) (quantity : Int)
    (cart : List CartItemRow) : List CartItemRow :=
  cart.map (fun c =>
    if c.id == cartItemId && c.user_id == userId then
      { c with quantity := quantity }
    else c)

/-- Rows matched by `id = ? AND user_id = ?` (the `affectedRows` of the
cart `UPDATE`/`DELETE`). -/
def cartMatched (cartItemId userId : Nat) (cart : List CartItemRow) : Nat :=
  (cart.filter (fun c => c.id == cartItemId && c.user_id == userId)).length

/-- `cartModel.updateCartItemQuantity`: the scoped `UPDATE`; throws
when `affectedRows === 0`. -/
def updateCartItemQuantity (cartItemId userId : Nat) (quantity : Int)
    (cart : List CartItemRow) : Except String Unit × List CartItemRow :=
  if cartMatched cartItemId userId cart == 0 then
    (.error "Cart item not found or does not belong to the user.",
      cartUpdateRun cartItemId userId quantity cart)
  else (.ok (), cartUpdateRun cartItemId userId quantity cart)

/-- `cartModel.removeCartItem`: `DELETE FROM cart_items WHERE id = ?
AND user_id = ?`; throws when `affectedRows === 0`. -/
def removeCartItem (cartItemId userId : Nat)
    (cart : List CartItemRow) : Except String Unit × List CartItemRow :=
  if cartMatched cartItemId userId cart == 0 then
    (.error "Cart item not found or does not belong to the user.",
      cart.filter (fun c => !(c.id == cartItemId && c.user_id == userId)))
  else (.ok (), cart.filter (fun c => !(c.id == cartItemId && c.user_id == userId)))

/-- `cartModel.clearCart`: `DELETE FROM cart_items WHERE user_id = ?`
(issued on the shared pool, not on a transaction connection). -/
def clearCart (userId : Nat) (cart : List CartItemRow) : List CartItemRow :=
  cart.filter (fun c => !(c.user_id == userId))

/-- C8: `updateQuantity` and `removeItem` succeed exactly when the item
exists and belongs to the given user; on a missing item or an ownership
mismatch both return the not-found error and leave the cart unchanged. -/
theorem C8_ownership_scoping (cartItemId userId : Nat) (quantity : Int)
    (cart : List CartItemRow) :
    ((updateCartItemQuantity cartItemId userId quantity cart).1 = .ok () ↔
      ∃ c ∈ cart, c.id = cartItemId ∧ c.user_id = userId) ∧
    ((removeCartItem cartItemId userId cart).1 = .ok () ↔
      ∃ c ∈ cart, c.id = cartItemId ∧ c.user_id = userId) ∧
    ((¬ ∃ c ∈ cart, c.id = cartItemId ∧ c.user_id = userId) →
      (updateCartItemQuantity cartItemId userId quantity cart).1 =
        .error "Cart item not found or does not belong to the user." ∧
      (updateCartItemQuantity cartItemId userId quantity cart).2 = cart ∧
      (removeCartItem cartItemId userId cart).1 =
        .error "Cart item not found or does not belong to the user." ∧
      (removeCartItem cartItemId userId cart).2 = cart) := by
  have hmz : cartMatched cartItemId userId cart = 0 ↔
      ¬ ∃ c ∈ cart, c.id = cartItemId ∧ c.user_id = userId := by
    unfold cartMatched
    rw [List.length_eq_zero, List.filter_eq_nil_iff]
    constructor
    · rintro h ⟨c, hc, h1, h2⟩
      exact h c hc (by simp [h1, h2])
    · intro h c hc
      simp only [Bool.and_eq_true, beq_iff_eq, not_and]
      intro h1 h2
      exact h ⟨c, hc, h1, h2⟩
  have hueq : ∀ h0 : cartMatched cartItemId userId cart = 0,
      updateCartItemQuantity cartItemId userId quantity cart =
        (.error "Cart item not found or does not belong to the user.",
          cartUpdateRun cartItemId userId quantity cart) := by
    intro h0
    unfold updateCartItemQuantity
    rw [h0]
    rfl
  have hreq : ∀ h0 : cartMatched cartItemId userId cart = 0,
      removeCartItem cartItemId userId cart =
        (.error "Cart item not found or does not belong to the user.",
          cart.filter (fun c => !(c.id == cartItemId && c.user_id == userId))) := by
    intro h0
    unfold removeCartItem
    rw [h0]
    rfl
  refine ⟨?_, ?_, ?_⟩
  · by_cases h : cartMatched cartItemId userId cart = 0
    · rw [hueq h]
      constructor
      · intro habs; exact absurd habs (by simp)
      · intro hex; exact absurd hex (hmz.mp h)
    · have hb : ¬((cartMatched cartItemId userId cart == 0) = true) := by
        simpa using h
      have ho : (updateCartItemQuantity cartItemId userId quantity cart).1 =
          .ok () := by
        unfold updateCartItemQuantity
        rw [if_neg hb]
      rw [ho]
      constructor
      · intro _
        by_contra hex
        exact h (hmz.mpr hex)
      · intro _; rfl
  · by_cases h : cartMatched cartItemId userId cart = 0
    · rw [hreq h]
      constructor
      · intro habs; exact absurd habs (by simp)
      · intro hex; exact absurd hex (hmz.mp h)
    · have hb : ¬((cartMatched cartItemId userId cart == 0) = true) := by
        simpa using h
      have ho : (removeCartItem cartItemId userId cart).1 = .ok () := by
        unfold removeCartItem
        rw [if_neg hb]
      rw [ho]
      constructor
      · intro _
        by_contra hex
        exact h (hmz.mpr hex)
      · intro _; rfl
  · intro hnone
    have h0 : cartMatched cartItemId userId cart = 0 := hmz.mpr hnone
    have hkeep : ∀ c ∈ cart, ¬(c.id = cartItemId ∧ c.user_id = userId) :=
      fun c hc hcc => hnone ⟨c, hc, hcc.1, hcc.2⟩
    have hupd : cartUpdateRun cartItemId userId quantity cart = cart := by
      unfold cartUpdateRun
      have heach : ∀ c ∈ cart,
          (if c.id == cartItemId && c.user_id == userId then
            { c with quantity := quantity } else c) = c := by
        intro c hc
        split
        case isTrue hcc =>
          simp only [Bool.and_eq_true, beq_iff_eq] at hcc
          exact absurd hcc (hkeep c hc)
        case isFalse hcc => rfl
      rw [List.map_congr_left heach]
      exact List.map_id cart
    have hdel : cart.filter
        (fun c => !(c.id == cartItemId && c.user_id == userId)) = cart := by
      rw [List.filter_eq_self]
      intro c hc
      simp only [Bool.not_eq_eq_eq_not, Bool.not_true, Bool.and_eq_false_iff,
        beq_eq_false_iff_ne, ne_eq]
      by_cases h1 : c.id = cartItemId
      · right
        intro h2
        exact hkeep c hc ⟨h1, h2⟩
      · left; exact h1
    exact ⟨by rw [hueq h0], by rw [hueq h0]; exact hupd,
      by rw [hreq h0], by rw [hreq h0]; exact hdel⟩

/-- Witness for C8: item 10 belongs to user 1; user 99 can neither
update nor remove it. -/
theorem C8_ownership_scoping_witness :
    (updateCartItemQuantity 10 99 7 [⟨10, 1, 2, 3⟩]).1 =
      .error "Cart item not found or does not belong to the user." ∧
    (updateCartItemQuantity 10 99 7 [⟨10, 1, 2, 3⟩]).2 = [⟨10, 1, 2, 3⟩] ∧
    (removeCartItem 10 99 [⟨10, 1, 2, 3⟩]).2 = [⟨10, 1, 2, 3⟩] := by
  have h := (C8_ownership_scoping 10 99 7 [⟨10, 1, 2, 3⟩]).2.2 (by decide)
  exact ⟨h.1, h.2.1, h.2.2.2⟩

/-- C7: `addItem` has upsert semantics on `(userId, productId)`: two
adds starting from a cart without the pair leave a single line with
quantity `q1 + q2`; and when a line for the pair already exists (the
schema's unique key guarantees at most one), `addItem` adds to its
quantity instead of inserting. -/
theorem C7_addItem_upsert (userId productId : Nat) (q1 q2 : Int)
    (cart : List CartItemRow) (nextId : Nat)
    (hfresh : ∀ c ∈ cart, c.id < nextId)
    (hno : ∀ c ∈ cart, ¬(c.user_id = userId ∧ c.product_id = productId)) :
    addItem userId productId q2
        (addItem userId productId q1 cart nextId).1
        (addItem userId productId q1 cart nextId).2.1 =
      (cart ++ [⟨nextId, userId, productId, q1 + q2⟩], nextId + 1, nextId) ∧
    ((addItem userId productId q2
        (addItem userId productId q1 cart nextId).1
        (addItem userId productId q1 cart nextId).2.1).1.filter
          (fun c => c.user_id == userId && c.product_id == productId)).length = 1 ∧
    (∀ (cart2 : List CartItemRow) (n2 : Nat) (q : Int) (c0 : CartItemRow),
      c0 ∈ cart2 → c0.user_id = userId → c0.product_id = productId →
      (∀ c ∈ cart2, c.user_id = userId → c.product_id = productId → c = c0) →
      addItem userId productId q cart2 n2 =
        (cart2.map (fun c => if c.id == c0.id then
            { c with quantity := c0.quantity + q } else c), n2, c0.id)) := by
  have hfil1 : cart.filter
      (fun c => c.user_id == userId && c.product_id == productId) = [] := by
    rw [List.filter_eq_nil_iff]
    intro c hc
    simp only [Bool.and_eq_true, beq_iff_eq, not_and]
    intro h1 h2
    exact hno c hc ⟨h1, h2⟩
  have hstep1 : addItem userId productId q1 cart nextId =
      (cart ++ [⟨nextId, userId, productId, q1⟩], nextId + 1, nextId) := by
    unfold addItem
    rw [hfil1]
  have hfil2 : (cart ++ [(⟨nextId, userId, productId, q1⟩ : CartItemRow)]).filter
      (fun c => c.user_id == userId && c.product_id == productId) =
      [⟨nextId, userId, productId, q1⟩] := by
    rw [List.filter_append, hfil1]
    simp
  have hstep2 : addItem userId productId q2
      (cart ++ [(⟨nextId, userId, productId, q1⟩ : CartItemRow)]) (nextId + 1) =
      ((cart ++ [(⟨nextId, userId, productId, q1⟩ : CartItemRow)]).map
        (fun c => if c.id == nextId then { c with quantity := q1 + q2 } else c),
       nextId + 1, nextId) := by
    unfold addItem
    rw [hfil2]
  have hmap : (cart ++ [(⟨nextId, userId, productId, q1⟩ : CartItemRow)]).map
      (fun c => if c.id == nextId then { c with quantity := q1 + q2 } else c) =
      cart ++ [⟨nextId, userId, productId, q1 + q2⟩] := by
    rw [List.map_append]
    congr 1
    · have heach : ∀ c ∈ cart,
          (if c.id == nextId then
            ({ c with quantity := q1 + q2 } : CartItemRow) else c) = c := by
        intro c hc
        have : c.id ≠ nextId := Nat.ne_of_lt (hfresh c hc)
        simp [this]
      rw [List.map_congr_left heach]
      exact List.map_id cart
    · simp
  have hmain : addItem userId productId q2
      (addItem userId productId q1 cart nextId).1
      (addItem userId productId q1 cart nextId).2.1 =
      (cart ++ [⟨nextId, userId, productId, q1 + q2⟩], nextId + 1, nextId) := by
    rw [hstep1]
    dsimp only
    rw [hstep2, hmap]
  refine ⟨hmain, ?_, ?_⟩
  · rw [hmain]
    dsimp only
    rw [List.filter_append, hfil1]
    simp
  · intro cart2 n2 q c0 hmem h1 h2 huniq
    have hc0match : (fun (c : CartItemRow) =>
        c.user_id == userId && c.product_id == productId) c0 = true := by
      simp [h1, h2]
    have hne : cart2.filter
        (fun c => c.user_id == userId && c.product_id == productId) ≠ [] := by
      intro habs
      have := (List.filter_eq_nil_iff.mp habs) c0 hmem
      exact this hc0match
    cases hfil : cart2.filter
        (fun c => c.user_id == userId && c.product_id == productId) with
    | nil => exact absurd hfil hne
    | cons e rest =>
      have hemem : e ∈ cart2.filter
          (fun c => c.user_id == userId && c.product_id == productId) := by
        rw [hfil]; exact List.mem_cons_self e rest
      rw [List.mem_filter] at hemem
      have heq : e = c0 := by
        have hcond := hemem.2
        simp only [Bool.and_eq_true, beq_iff_eq] at hcond
        exact huniq e hemem.1 hcond.1 hcond.2
      unfold addItem
      rw [hfil, heq]

/-- Witness for C7: two adds of the same product into an empty cart. -/
theorem C7_addItem_upsert_witness :
    addItem 1 2 4 (addItem 1 2 3 [] 1).1 (addItem 1 2 3 [] 1).2.1 =
      ([⟨1, 1, 2, 3 + 4⟩], 1 + 1, 1) :=
  (C7_addItem_upsert 1 2 3 4 [] 1 (by simp) (by simp)).1

/-- One element of `req.body.items` for `POST /orders`. -/
structure OrderReqItem where
  product_id : Nat
  quantity : Int
  product_price : Int
  deriving Repr, DecidableEq

/-- The request body of `POST /orders` together with the authenticated
user id; `none` models an absent (`undefined`/`null`, or for `items`
non-array) field.  The shipping address is carried in its serialized
form (`JSON.stringify` is abstracted away since the controller only
passes the value through). -/
structure CreateOrderReq where
  items : Option (List OrderReqItem)
  totalAmount : Option Int
  shippingAddress : Option String
  userId : Nat
  deriving Repr, DecidableEq

/-- The caller-visible outcome of `createOrder`: HTTP status code,
`message`, and `orderId` when present. -/
structure OrderResponse where
  status : Nat
  message : String
  orderId : Option Nat
  deriving Repr, DecidableEq

/-- The tables the order transaction writes, as seen by the pooled
connection after `beginTransaction`: a working copy of the committed
state, published on commit and discarded on rollback. -/
structure Conn where
  orders : List OrderRow
  orderItems : List OrderItemRow
  products : List ProductRow
  nextOrderId : Nat
  deriving Repr, DecidableEq

/-- `connection.beginTransaction()`: the connection starts from the
committed state. -/
def beginConn (db : DB) : Conn :=
  ⟨db.orders, db.orderItems, db.products, db.nextOrderId⟩

/-- `connection.commit()`: publish the connection's writes.  Only
`orders`, `order_items` and `products` are written through the
connection; the committed `cart_items` (touched through the pool, if at
all) stands. -/
def commitConn (conn : Conn) (db : DB) : DB :=
  { db with
    orders := conn.orders
    orderItems := conn.orderItems
    products := conn.products
    nextOrderId := conn.nextOrderId }

/-- `INSERT INTO orders (user_id, total_amount, shipping_address,
status) VALUES (?, ?, ?, 'pending')` on the connection; the new row
gets the next `AUTO_INCREMENT` id.  The `order_date` column defaults to
the creation timestamp, abstracted to `0` (no Coordinator claim
involves it). -/
def insertOrderHeader (userId : Nat) (totalAmount : Int) (addr : String)
    (conn : Conn) : Conn :=
  { conn with
    orders := conn.orders ++
      [⟨conn.nextOrderId, userId, totalAmount, addr, "pending", 0⟩]
    nextOrderId := conn.nextOrderId + 1 }

/-- `INSERT INTO order_items (order_id, product_id, quantity, price)`
on the connection. -/
def insertOrderItem (orderId : Nat) (it : OrderReqItem) (conn : Conn) : Conn :=
  { conn with orderItems := conn.orderItems ++
      [⟨orderId, it.product_id, it.quantity, it.product_price⟩] }

/-- The `for (const item of items)` loop of `createOrder`: insert the
line, then run the conditional decrement on the same connection; a
decrement failure aborts the loop with the thrown message. -/
def processItems (orderId : Nat) (items : List OrderReqItem) (conn : Conn) :
    Except String Conn :=
  match items with
  | [] => .ok conn
  | it :: rest =>
    match deductProductStock it.product_id it.quantity
        (insertOrderItem orderId it conn).products with
    | (.error m, _) => .error m
    | (.ok _, ps) =>
      processItems orderId rest
        { insertOrderItem orderId it conn with products := ps }

/-- `orderController.createOrder`.  `commitFault = some m` models
`connection.commit()` throwing an error whose `error.message` is `m`
(`none`: commit succeeds).  Returns the HTTP response and the committed
database after the request: rollback discards the connection's working
copy, while `cartModel.clearCart` runs on the shared pool (not on the
connection) and therefore takes effect immediately. -/
def createOrder (req : CreateOrderReq) (db : DB)
    (commitFault : Option String) : OrderResponse × DB :=
  match req.items with
  | none => (⟨400, "Order must contain at least one item.", none⟩, db)
  | some items =>
    if items.isEmpty then
      (⟨400, "Order must contain at least one item.", none⟩, db)
    else
      match req.totalAmount with
      | none => (⟨400, "Total amount is required.", none⟩, db)
      | some totalAmount =>
        match req.shippingAddress with
        | none => (⟨400, "Shipping address is required.", none⟩, db)
        | some addr =>
          if addr = "" then
            (⟨400, "Shipping address is required.", none⟩, db)
          else
            match processItems (beginConn db).nextOrderId items
                (insertOrderHeader req.userId totalAmount addr (beginConn db)) with
            | .error m =>
              (⟨500, if m = "" then "Failed to place order." else m, none⟩, db)
            | .ok conn2 =>
              match commitFault with
              | some m =>
                (⟨500, if m = "" then "Failed to place order." else m, none⟩,
                  { db with cartItems := clearCart req.userId db.cartItems })
              | none =>
                (⟨201, "Order placed successfully!",
                    some (beginConn db).nextOrderId⟩,
                  commitConn conn2
                    { db with cartItems := clearCart req.userId db.cartItems })

/-- The request-validation predicate exactly as `createOrder` checks
it: items absent/non-array/empty, `totalAmount` undefined or null, or
`shippingAddress` falsy.  Line quantities are not examined. -/
def validationFails (req : CreateOrderReq) : Bool :=
  match req.items with
  | none => true
  | some items =>
    items.isEmpty || req.totalAmount.isNone ||
      (match req.shippingAddress with
       | none => true
       | some addr => addr == "")

/-- Whether a run of `createOrder` reaches the `clearCart` step:
validation passed and every line's decrement succeeded. -/
def clearReached (req : CreateOrderReq) (db : DB) : Bool :=
  match req.items, req.totalAmount, req.shippingAddress with
  | some items, some totalAmount, some addr =>
    !items.isEmpty && !(addr == "") &&
      (processItems (beginConn db).nextOrderId items
        (insertOrderHeader req.userId totalAmount addr (beginConn db))).isOk
  | _, _, _ => false

theorem isOk_ok_conn (c : Conn) :
    (Except.ok c : Except String Conn).isOk = true := rfl

theorem isOk_error_conn (m : String) :
    (Except.error m : Except String Conn).isOk = false := rfl

/-- The message thrown by a failing decrement. -/
theorem deduct_error_msg (pid : Nat) (q : Int) (products : List ProductRow)
    (m : String) (h : (deductProductStock pid q products).1 = .error m) :
    m = "Insufficient stock or product not found for product ID: "
      ++ toString pid := by
  unfold deductProductStock at h
  split at h
  · simp only [Except.error.injEq] at h
    exact h.symm
  · simp at h

/-- Any error escaping the order-items loop is the decrement's
insufficient-stock message for some product id. -/
theorem processItems_error (orderId : Nat) :
    ∀ (items : List OrderReqItem) (conn : Conn) (m : String),
      processItems orderId items conn = .error m →
      ∃ pid : Nat,
        m = "Insufficient stock or product not found for product ID: "
          ++ toString pid := by
  intro items
  induction items with
  | nil =>
    intro conn m h
    simp [processItems] at h
  | cons it rest ih =>
    intro conn m h
    unfold processItems at h
    rcases hdp : deductProductStock it.product_id it.quantity
        (insertOrderItem orderId it conn).products with ⟨e, ps⟩
    rw [hdp] at h
    cases e with
    | error m2 =>
      simp only [Except.error.injEq] at h
      refine ⟨it.product_id, ?_⟩
      rw [← h]
      exact deduct_error_msg it.product_id it.quantity
        (insertOrderItem orderId it conn).products m2 (by rw [hdp])
    | ok u =>
      exact ih _ m h

/-- `createOrder` on a request that passes validation but whose loop
throws: full rollback and the thrown message (subject to the
`error.message || generic` fallback). -/
theorem createOrder_error_branch (items : List OrderReqItem) (totalAmount : Int)
    (addr : String) (userId : Nat) (db : DB) (fault : Option String) (m : String)
    (hne : items.isEmpty = false) (haddr : addr ≠ "")
    (hfail : processItems (beginConn db).nextOrderId items
      (insertOrderHeader userId totalAmount addr (beginConn db)) = .error m) :
    createOrder ⟨some items, some totalAmount, some addr, userId⟩ db fault =
      (⟨500, if m = "" then "Failed to place order." else m, none⟩, db) := by
  unfold createOrder
  simp only [hne, Bool.false_eq_true, if_false, if_neg haddr, hfail]

/-- `createOrder` when the loop succeeds but the commit throws: the
connection's writes are rolled back, but the pool-side cart deletion
stands. -/
theorem createOrder_commitFault_branch (items : List OrderReqItem)
    (totalAmount : Int) (addr : String) (userId : Nat) (db : DB)
    (m : String) (conn2 : Conn)
    (hne : items.isEmpty = false) (haddr : addr ≠ "")
    (hok : processItems (beginConn db).nextOrderId items
      (insertOrderHeader userId totalAmount addr (beginConn db)) = .ok conn2) :
    createOrder ⟨some items, some totalAmount, some addr, userId⟩ db (some m) =
      (⟨500, if m = "" then "Failed to place order." else m, none⟩,
        { db with cartItems := clearCart userId db.cartItems }) := by
  unfold createOrder
  simp only [hne, Bool.false_eq_true, if_false, if_neg haddr, hok]

/-- `createOrder` when everything succeeds: commit publishes the
connection's writes over the cart-cleared committed state. -/
theorem createOrder_success_branch (items : List OrderReqItem)
    (totalAmount : Int) (addr : String) (userId : Nat) (db : DB) (conn2 : Conn)
    (hne : items.isEmpty = false) (haddr : addr ≠ "")
    (hok : processItems (beginConn db).nextOrderId items
      (insertOrderHeader userId totalAmount addr (beginConn db)) = .ok conn2) :
    createOrder ⟨some items, some totalAmount, some addr, userId⟩ db none =
      (⟨201, "Order placed successfully!", some (beginConn db).nextOrderId⟩,
        commitConn conn2 { db with cartItems := clearCart userId db.cartItems }) := by
  unfold createOrder
  simp only [hne, Bool.false_eq_true, if_false, if_neg haddr, hok]

/-- C1: when a line's conditional decrement fails inside the loop, the
whole transactional scope is rolled back — the final committed state is
exactly the pre-attempt state (no header, no lines, no decrements, cart
untouched) — and the caller receives the insufficient-stock error. -/
theorem C1_stock_failure_aborts_all (items : List OrderReqItem)
    (totalAmount : Int) (addr : String) (userId : Nat) (db : DB)
    (commitFault : Option String) (m : String)
    (hne : items.isEmpty = false) (haddr : addr ≠ "")
    (hfail : processItems (beginConn db).nextOrderId items
      (insertOrderHeader userId totalAmount addr (beginConn db)) = .error m) :
    createOrder ⟨some items, some totalAmount, some addr, userId⟩ db commitFault =
      (⟨500, m, none⟩, db) ∧
    ∃ pid : Nat,
      m = "Insufficient stock or product not found for product ID: "
        ++ toString pid := by
  obtain ⟨pid, hm⟩ := processItems_error _ items _ m hfail
  have hmne : m ≠ "" := by
    rw [hm]
    intro habs
    have hlen := congrArg String.length habs
    rw [String.length_append] at hlen
    have hv : 0 < ("Insufficient stock or product not found for product ID: ").length := by
      decide
    have hb : ("" : String).length = 0 := by decide
    omega
  have := createOrder_error_branch items totalAmount addr userId db
    commitFault m hne haddr hfail
  rw [if_neg hmne] at this
  exact ⟨this, pid, hm⟩

/-- Witness for C1: cart line asks 9 of product 1 which has stock 5. -/
theorem C1_stock_failure_aborts_all_witness :
    createOrder ⟨some [⟨1, 9, 10⟩], some 20, some "addr", 1⟩
      ⟨[⟨1, "u", "e"⟩], [⟨1, "p", "i", 5⟩], [], [], [⟨1, 1, 1, 2⟩], 1, 2⟩ none =
      (⟨500, "Insufficient stock or product not found for product ID: 1", none⟩,
        ⟨[⟨1, "u", "e"⟩], [⟨1, "p", "i", 5⟩], [], [], [⟨1, 1, 1, 2⟩], 1, 2⟩) :=
  (C1_stock_failure_aborts_all [⟨1, 9, 10⟩] 20 "addr" 1
    ⟨[⟨1, "u", "e"⟩], [⟨1, "p", "i", 5⟩], [], [], [⟨1, 1, 1, 2⟩], 1, 2⟩ none
    "Insufficient stock or product not found for product ID: 1"
    rfl (by decide) rfl).1

/-- C2 counterexample: a commit failure after the cart-clear step.  The
attempt fails (HTTP 500) and the order/stock writes are rolled back,
yet the user's cart line is gone — the cart deletion ran on the pool,
outside the transaction, so it is not part of the all-or-nothing
unit. -/
theorem C2_counterexample :
    (createOrder ⟨some [⟨1, 2, 10⟩], some 20, some "addr", 1⟩
      ⟨[⟨1, "u", "e"⟩], [⟨1, "p", "i", 5⟩], [], [], [⟨1, 1, 1, 2⟩], 1, 2⟩
      (some "Connection lost")).1.status = 500 ∧
    (createOrder ⟨some [⟨1, 2, 10⟩], some 20, some "addr", 1⟩
      ⟨[⟨1, "u", "e"⟩], [⟨1, "p", "i", 5⟩], [], [], [⟨1, 1, 1, 2⟩], 1, 2⟩
      (some "Connection lost")).2.cartItems = [] ∧
    (⟨[⟨1, "u", "e"⟩], [⟨1, "p", "i", 5⟩], [], [], [⟨1, 1, 1, 2⟩], 1, 2⟩
      : DB).cartItems = [⟨1, 1, 1, 2⟩] ∧
    (createOrder ⟨some [⟨1, 2, 10⟩], some 20, some "addr", 1⟩
      ⟨[⟨1, "u", "e"⟩], [⟨1, "p", "i", 5⟩], [], [], [⟨1, 1, 1, 2⟩], 1, 2⟩
      (some "Connection lost")).2.orders = [] :=
  ⟨rfl, rfl, rfl, rfl⟩

/-- C2 amended: the cart deletion is not transactional.  The final
cart state is characterized by whether the run reached the pool-side
`clearCart` call: reached (loop succeeded) — the user's lines are gone
whether or not the commit then succeeds; not reached (validation or
decrement failure) — the cart is untouched. -/
theorem C2_cart_clear_outside_transaction (req : CreateOrderReq) (db : DB)
    (fault : Option String) :
    (createOrder req db fault).2.cartItems =
      (if clearReached req db then clearCart req.userId db.cartItems
       else db.cartItems) := by
  rcases req with ⟨items?, total?, addr?, userId⟩
  cases items? with
  | none => simp [createOrder, clearReached]
  | some items =>
    cases hie : items.isEmpty with
    | true => cases total? <;> cases addr? <;> simp [createOrder, clearReached, hie]
    | false =>
      cases total? with
      | none => cases addr? <;> simp [createOrder, clearReached, hie]
      | some totalAmount =>
        cases addr? with
        | none => simp [createOrder, clearReached, hie]
        | some addr =>
          by_cases ha : addr = ""
          · simp [createOrder, clearReached, hie, ha]
          · cases hpi : processItems (beginConn db).nextOrderId items
                (insertOrderHeader userId totalAmount addr (beginConn db)) with
            | error m =>
              simp [createOrder, clearReached, hie, ha, hpi, isOk_error_conn]
            | ok conn2 =>
              cases fault with
              | some m =>
                simp [createOrder, clearReached, hie, ha, hpi, isOk_ok_conn]
              | none =>
                simp [createOrder, clearReached, hie, ha, hpi, isOk_ok_conn,
                  commitConn]

/-- C5 counterexample: a request whose only line has quantity 0 (a
non-positive quantity) is not rejected with a 400 ValidationError — the
transaction is begun and the order is placed (HTTP 201). -/
theorem C5_counterexample :
    (createOrder ⟨some [⟨1, 0, 10⟩], some 20, some "addr", 1⟩
      ⟨[], [⟨1, "p", "i", 5⟩], [], [], [], 1, 1⟩ none).1.status = 201 ∧
    (⟨1, 0, 10⟩ : OrderReqItem).quantity ≤ 0 ∧
    (createOrder ⟨some [⟨1, 0, 10⟩], some 20, some "addr", 1⟩
      ⟨[], [⟨1, "p", "i", 5⟩], [], [], [], 1, 1⟩ none).2.orders =
      [⟨1, 1, 20, "addr", "pending", 0⟩] :=
  ⟨rfl, by norm_num, rfl⟩

/-- C5 amended: `createOrder` answers 400 before any connection work
exactly for the checks the code makes — items absent/empty,
`totalAmount` absent, `shippingAddress` absent/falsy — and on such
rejection the state is untouched; line quantities are not validated,
so a non-positive quantity proceeds into the transaction. -/
theorem C5_validation_scope (req : CreateOrderReq) (db : DB)
    (fault : Option String) :
    ((createOrder req db fault).1.status = 400 ↔ validationFails req = true) ∧
    (validationFails req = true → (createOrder req db fault).2 = db) := by
  rcases req with ⟨items?, total?, addr?, userId⟩
  cases items? with
  | none => simp [createOrder, validationFails]
  | some items =>
    cases hie : items.isEmpty with
    | true => cases total? <;> cases addr? <;> simp [createOrder, validationFails, hie]
    | false =>
      cases total? with
      | none => cases addr? <;> simp [createOrder, validationFails, hie]
      | some totalAmount =>
        cases addr? with
        | none => simp [createOrder, validationFails, hie]
        | some addr =>
          by_cases ha : addr = ""
          · simp [createOrder, validationFails, hie, ha]
          · cases hpi : processItems (beginConn db).nextOrderId items
                (insertOrderHeader userId totalAmount addr (beginConn db)) with
            | error m => simp [createOrder, validationFails, hie, ha, hpi]
            | ok conn2 =>
              cases fault with
              | some m => simp [createOrder, validationFails, hie, ha, hpi]
              | none => simp [createOrder, validationFails, hie, ha, hpi]

/-- C6 counterexample: a non-stock failure (here a commit error with
`error.message = "Connection lost"`) is answered with that internal
message, not with the generic failure message. -/
theorem C6_counterexample :
    (createOrder ⟨some [⟨1, 2, 10⟩], some 20, some "addr", 1⟩
      ⟨[⟨1, "u", "e"⟩], [⟨1, "p", "i", 5⟩], [], [], [⟨1, 1, 1, 2⟩], 1, 2⟩
      (some "Connection lost")).1.message = "Connection lost" ∧
    "Connection lost" ≠ "Failed to place order." :=
  ⟨rfl, by decide⟩

/-- C6 amended: after the transaction begins, an insufficient-stock
failure surfaces its distinguishing message; any other failure
surfaces the internal error's own message whenever it is nonempty, and
the generic `Failed to place order.` only as fallback for a
message-less error. -/
theorem C6_error_message_passthrough (items : List OrderReqItem)
    (totalAmount : Int) (addr : String) (userId : Nat) (db : DB)
    (fault : Option String)
    (hne : items.isEmpty = false) (haddr : addr ≠ "") :
    (∀ (m : String) (conn2 : Conn),
      processItems (beginConn db).nextOrderId items
        (insertOrderHeader userId totalAmount addr (beginConn db)) = .ok conn2 →
      (createOrder ⟨some items, some totalAmount, some addr, userId⟩ db
          (some m)).1 =
        ⟨500, if m = "" then "Failed to place order." else m, none⟩) ∧
    (∀ m : String,
      processItems (beginConn db).nextOrderId items
        (insertOrderHeader userId totalAmount addr (beginConn db)) = .error m →
      (createOrder ⟨some items, some totalAmount, some addr, userId⟩ db
          fault).1 = ⟨500, m, none⟩ ∧
      ∃ pid : Nat,
        m = "Insufficient stock or product not found for product ID: "
          ++ toString pid) := by
  constructor
  · intro m conn2 hok
    rw [createOrder_commitFault_branch items totalAmount addr userId db m conn2
      hne haddr hok]
  · intro m hfail
    obtain ⟨pid, hm⟩ := processItems_error _ items _ m hfail
    have hmne : m ≠ "" := by
      rw [hm]
      intro habs
      have hlen := congrArg String.length habs
      rw [String.length_append] at hlen
      have hv : 0 <
          ("Insufficient stock or product not found for product ID: ").length := by
        decide
      have hb : ("" : String).length = 0 := by decide
      omega
    have := createOrder_error_branch items totalAmount addr userId db fault m
      hne haddr hfail
    rw [if_neg hmne] at this
    rw [this]
    exact ⟨rfl, pid, hm⟩

/-- Witness for C6 (amended): a commit fault with a nonempty message is
passed through verbatim. -/
theorem C6_error_message_passthrough_witness :
    (createOrder ⟨some [⟨1, 2, 10⟩], some 20, some "addr", 1⟩
      ⟨[⟨1, "u", "e"⟩], [⟨1, "p", "i", 5⟩], [], [], [⟨1, 1, 1, 2⟩], 1, 2⟩
      (some "Connection lost")).1 =
      ⟨500, if "Connection lost" = "" then "Failed to place order."
        else "Connection lost", none⟩ :=
  (C6_error_message_passthrough [⟨1, 2, 10⟩] 20 "addr" 1
    ⟨[⟨1, "u", "e"⟩], [⟨1, "p", "i", 5⟩], [], [], [⟨1, 1, 1, 2⟩], 1, 2⟩
    none rfl (by decide)).1 "Connection lost"
    ⟨[⟨1, 1, 20, "addr", "pending", 0⟩],
      [⟨1, 1, 2, 10⟩], [⟨1, "p", "i", 3⟩], 2⟩ rfl

/-- One flat row of the order-history join (`orders` ⋈ `order_items` ⋈
`products`; the admin query also joins `users`).  The user-scoped query
does not select the customer columns: they are carried as `""` there
and ignored by that reader's view constructor. -/
structure JoinRow where
  order_id : Nat
  order_date : Int
  total_amount : Int
  status : String
  shipping_address : String
  quantity : Int
  item_price : Int
  product_name : String
  product_image_id : String
  customer_username : String
  customer_email : String
  deriving Repr, DecidableEq

/-- The customer identity attached by the admin reader. -/
structure Customer where
  username : String
  email : String
  deriving Repr, DecidableEq

/-- One element of a view's `items` array. -/
structure OrderItemView where
  product_name : String
  quantity : Int
  item_price : Int
  image_url : String
  deriving Repr, DecidableEq

/-- One grouped order view.  `α` is the deserialized shipping-address
type (`none` models the `null` fallback); `customer` is `none` for the
user-scoped reader and `some` for the admin reader. -/
structure OrderView (α : Type) where
  order_id : Nat
  order_date : Int
  total_amount : Int
  status : String
  shipping_address : Option α
  customer : Option Customer
  items : List OrderItemView
  deriving Repr, DecidableEq

/-- The item object pushed for each row. -/
def rowItem (r : JoinRow) : OrderItemView :=
  ⟨r.product_name, r.quantity, r.item_price, r.product_image_id⟩

/-- The view created when a row's `order_id` is first seen
(`ordersMap.set` with an empty `items` array; the shipping address is
deserialized here, with the `null` fallback on a parse failure). -/
def newView {α : Type} (mkCustomer : JoinRow → Option Customer)
    (parse : String → Option α) (r : JoinRow) : OrderView α :=
  ⟨r.order_id, r.order_date, r.total_amount, r.status,
    parse r.shipping_address, mkCustomer r, []⟩

/-- `ordersMap.get(oid).items.push(it)`: append the item to the (first)
view keyed by `oid`. -/
def pushItem {α : Type} (oid : Nat) (it : OrderItemView) :
    List (OrderView α) → List (OrderView α)
  | [] => []
  | v :: vs =>
    if v.order_id == oid then { v with items := v.items ++ [it] } :: vs
    else v :: pushItem oid it vs

/-- One iteration of the grouping loop over the joined rows: create the
view on first sight of an `order_id` (recording the id in the anomaly
log when its address fails to parse), then push the row's item. -/
def groupStep {α : Type} (mkCustomer : JoinRow → Option Customer)
    (parse : String → Option α)
    (acc : List (OrderView α) × List Nat) (r : JoinRow) :
    List (OrderView α) × List Nat :=
  if acc.1.any (fun v => v.order_id == r.order_id) then
    (pushItem r.order_id (rowItem r) acc.1, acc.2)
  else
    (pushItem r.order_id (rowItem r) (acc.1 ++ [newView mkCustomer parse r]),
      if (parse r.shipping_address).isNone then acc.2 ++ [r.order_id]
      else acc.2)

/-- The grouping pass shared by `getUserOrders` and `getAllOrders`
(which differ only in the customer field of the created views): fold
the flat rows into insertion-ordered views; the second component is the
list of order ids whose shipping address could not be deserialized (the
logged anomalies). -/
def groupOrderRows {α : Type} (mkCustomer : JoinRow → Option Customer)
    (parse : String → Option α) (rows : List JoinRow) :
    List (OrderView α) × List Nat :=
  rows.foldl (groupStep mkCustomer parse) ([], [])

/-- `getUserOrders` builds its views without a customer field. -/
def userCustomer (_ : JoinRow) : Option Customer := none

/-- `getAllOrders` attaches the joined user's identity. -/
def adminCustomer (r : JoinRow) : Option Customer :=
  some ⟨r.customer_username, r.customer_email⟩

/-- `orderController.getUserOrders`, applied to the rows its SQL query
delivers (the query orders them by `order_date DESC`). -/
def getUserOrders {α : Type} (parse : String → Option α)
    (rows : List JoinRow) : List (OrderView α) × List Nat :=
  groupOrderRows userCustomer parse rows

/-- `orderController.getAllOrders`, applied to the rows its SQL query
delivers. -/
def getAllOrders {α : Type} (parse : String → Option α)
    (rows : List JoinRow) : List (OrderView α) × List Nat :=
  groupOrderRows adminCustomer parse rows

/-- The row set of `getUserOrders`' query: the user's orders
inner-joined with their items and the items' products (modulo the
`ORDER BY`, which permutes it). -/
def userOrderJoinRows (db : DB) (userId : Nat) : List JoinRow :=
  (db.orders.filter (fun o => o.user_id == userId)).flatMap (fun o =>
    (db.orderItems.filter (fun oi => oi.order_id == o.id)).flatMap (fun oi =>
      (db.products.filter (fun p => p.id == oi.product_id)).map (fun p =>
        ⟨o.id, o.order_date, o.total_amount, o.status, o.shipping_address,
          oi.quantity, oi.price, p.name, p.image_id, "", ""⟩)))

/-- The row set of `getAllOrders`' query: every order inner-joined with
its user, items and products. -/
def allOrderJoinRows (db : DB) : List JoinRow :=
  db.orders.flatMap (fun o =>
    (db.users.filter (fun u => u.id == o.user_id)).flatMap (fun u =>
      (db.orderItems.filter (fun oi => oi.order_id == o.id)).flatMap (fun oi =>
        (db.products.filter (fun p => p.id == oi.product_id)).map (fun p =>
          ⟨o.id, o.order_date, o.total_amount, o.status, o.shipping_address,
            oi.quantity, oi.price, p.name, p.image_id,
            u.username, u.email⟩))))

/-- First-occurrence deduplication (the key order of a JS `Map` built
by insertion). -/
def firstDedup : List Nat → List Nat
  | [] => []
  | x :: xs => x :: firstDedup (xs.filter (fun y => !(y == x)))
termination_by l => l.length
decreasing_by simpa using Nat.lt_succ_of_le (List.length_filter_le _ xs)

/-- Reference recursion for the grouping fold: the first row of an
order creates its view — fields and address parse taken from that first
row — and collects every row of the same order in order; later orders
follow.  The second component is the anomaly log. -/
def groupRec {α : Type} (mkCustomer : JoinRow → Option Customer)
    (parse : String → Option α) :
    List JoinRow → List (OrderView α) × List Nat
  | [] => ([], [])
  | r :: rs =>
    ({ newView mkCustomer parse r with
        items := rowItem r ::
          (rs.filter (fun r2 => r2.order_id == r.order_id)).map rowItem } ::
      (groupRec mkCustomer parse
        (rs.filter (fun r2 => !(r2.order_id == r.order_id)))).1,
     (if (parse r.shipping_address).isNone then [r.order_id] else []) ++
      (groupRec mkCustomer parse
        (rs.filter (fun r2 => !(r2.order_id == r.order_id)))).2)
termination_by rows => rows.length
decreasing_by simpa using Nat.lt_succ_of_le (List.length_filter_le _ rs)

/-- Each already-present view extended with its items from `rows`. -/
def extendViews {α : Type} (rows : List JoinRow)
    (views : List (OrderView α)) : List (OrderView α) :=
  views.map (fun v => { v with items := v.items ++
    ((rows.filter (fun r => r.order_id == v.order_id)).map rowItem) })

theorem nat_beq_comm (a b : Nat) : (a == b) = (b == a) := by
  by_cases h : a = b
  · simp [h]
  · simp [h, Ne.symm h]

theorem pushItem_ids {α : Type} (oid : Nat) (it : OrderItemView)
    (vs : List (OrderView α)) :
    (pushItem oid it vs).map (·.order_id) = vs.map (·.order_id) := by
  induction vs with
  | nil => rfl
  | cons v vs ih =>
    unfold pushItem
    split
    · simp
    · simpa using ih

theorem pushItem_any {α : Type} (oid x : Nat) (it : OrderItemView)
    (vs : List (OrderView α)) :
    (pushItem oid it vs).any (fun v => v.order_id == x) =
      vs.any (fun v => v.order_id == x) := by
  induction vs with
  | nil => rfl
  | cons v vs ih =>
    unfold pushItem
    split
    · simp
    · simp only [List.any_cons, ih]

theorem extendViews_nil {α : Type} (views : List (OrderView α)) :
    extendViews [] views = views := by
  unfold extendViews
  have heach : ∀ v ∈ views,
      ({ v with items := v.items ++
        (([] : List JoinRow).filter
          (fun r => r.order_id == v.order_id)).map rowItem } : OrderView α) = v := by
    intro v _
    simp
  rw [List.map_congr_left heach]
  exact List.map_id views

theorem extendViews_cons_nomatch {α : Type} (r : JoinRow) (rs : List JoinRow)
    (views : List (OrderView α))
    (h : views.any (fun v => v.order_id == r.order_id) = false) :
    extendViews (r :: rs) views = extendViews rs views := by
  unfold extendViews
  refine List.map_congr_left (fun v hv => ?_)
  have hvne : (v.order_id == r.order_id) = false := by
    by_contra hc
    have : views.any (fun v => v.order_id == r.order_id) = true :=
      List.any_eq_true.mpr ⟨v, hv, by simpa using hc⟩
    rw [this] at h
    cases h
  have : (r.order_id == v.order_id) = false := by
    rw [nat_beq_comm]; exact hvne
  simp [List.filter_cons, this]

theorem extendViews_push {α : Type} (r : JoinRow) (rs : List JoinRow)
    (views : List (OrderView α))
    (hnd : (views.map (·.order_id)).Nodup) :
    extendViews rs (pushItem r.order_id (rowItem r) views) =
      extendViews (r :: rs) views := by
  induction views with
  | nil => rfl
  | cons v vs ih =>
    have hndtail : (vs.map (·.order_id)).Nodup := (List.nodup_cons.mp hnd).2
    have hhead : v.order_id ∉ vs.map (·.order_id) := (List.nodup_cons.mp hnd).1
    unfold pushItem
    split
    case isTrue hv =>
      have hveq : v.order_id = r.order_id := by simpa using hv
      have hvs_nomatch : vs.any (fun v2 => v2.order_id == r.order_id) = false := by
        by_contra hc
        rw [Bool.not_eq_false, List.any_eq_true] at hc
        obtain ⟨v2, hv2, hv2id⟩ := hc
        exact hhead (by
          rw [hveq]
          exact List.mem_map.mpr ⟨v2, hv2, by simpa using hv2id⟩)
      unfold extendViews
      simp only [List.map_cons]
      rw [List.cons_eq_cons]
      constructor
      · have hrfil : (r.order_id == v.order_id) = true := by
          simp [hveq]
        simp [List.filter_cons, hrfil, List.append_assoc]
      · have h2 := extendViews_cons_nomatch r rs vs hvs_nomatch
        unfold extendViews at h2
        exact h2.symm
    case isFalse hv =>
      unfold extendViews
      simp only [List.map_cons]
      rw [List.cons_eq_cons]
      constructor
      · have hrfil : (r.order_id == v.order_id) = false := by
          rw [nat_beq_comm]
          simpa using hv
        simp [List.filter_cons, hrfil]
      · have h2 := ih hndtail
        unfold extendViews at h2
        exact h2

theorem pushItem_append_new {α : Type} (oid : Nat) (it : OrderItemView)
    (views : List (OrderView α)) (v0 : OrderView α)
    (h : views.any (fun v => v.order_id == oid) = false)
    (hv0 : v0.order_id = oid) :
    pushItem oid it (views ++ [v0]) =
      views ++ [{ v0 with items := v0.items ++ [it] }] := by
  induction views with
  | nil =>
    unfold pushItem
    simp [hv0]
  | cons v vs ih =>
    have hvne : (v.order_id == oid) = false := by
      by_contra hc
      rw [Bool.not_eq_false] at hc
      have : (v :: vs).any (fun v2 => v2.order_id == oid) = true :=
        List.any_eq_true.mpr ⟨v, List.mem_cons_self v vs, hc⟩
      rw [this] at h
      cases h
    have hvs : vs.any (fun v2 => v2.order_id == oid) = false := by
      by_contra hc
      rw [Bool.not_eq_false, List.any_eq_true] at hc
      obtain ⟨v2, hv2, hv2id⟩ := hc
      have : (v :: vs).any (fun v2 => v2.order_id == oid) = true :=
        List.any_eq_true.mpr ⟨v2, List.mem_cons_of_mem v hv2, hv2id⟩
      rw [this] at h
      cases h
    unfold pushItem
    simp only [List.cons_append, hvne, Bool.false_eq_true, if_false]
    rw [ih hvs]

/-- Characterization of the grouping fold: run from an accumulator with
distinct keys, it extends the present views with their matching items
and appends the reference grouping of the not-yet-present orders; the
log grows by the fresh groups' parse failures. -/
theorem groupFold_eq {α : Type} (mkCustomer : JoinRow → Option Customer)
    (parse : String → Option α) :
    ∀ (rows : List JoinRow) (views : List (OrderView α)) (log : List Nat),
      (views.map (·.order_id)).Nodup →
      rows.foldl (groupStep mkCustomer parse) (views, log) =
        (extendViews rows views ++
          (groupRec mkCustomer parse (rows.filter (fun r =>
            !(views.any (fun v => v.order_id == r.order_id))))).1,
         log ++ (groupRec mkCustomer parse (rows.filter (fun r =>
            !(views.any (fun v => v.order_id == r.order_id))))).2) := by
  intro rows
  induction rows with
  | nil =>
    intro views log hnd
    simp only [List.foldl_nil, List.filter_nil, extendViews_nil]
    rw [groupRec]
    simp
  | cons r rs ih =>
    intro views log hnd
    rw [List.foldl_cons]
    by_cases hmem : views.any (fun v => v.order_id == r.order_id) = true
    · have hstep : groupStep mkCustomer parse (views, log) r =
          (pushItem r.order_id (rowItem r) views, log) := by
        unfold groupStep
        simp only [hmem, if_true]
      rw [hstep,
        ih (pushItem r.order_id (rowItem r) views) log
          (by rw [pushItem_ids]; exact hnd)]
      have hfila : rs.filter (fun r2 =>
          !((pushItem r.order_id (rowItem r) views).any
            (fun v => v.order_id == r2.order_id))) =
          rs.filter (fun r2 =>
            !(views.any (fun v => v.order_id == r2.order_id))) :=
        List.filter_congr (fun r2 _ => by rw [pushItem_any])
      have hfilb : (r :: rs).filter (fun r2 =>
          !(views.any (fun v => v.order_id == r2.order_id))) =
          rs.filter (fun r2 =>
            !(views.any (fun v => v.order_id == r2.order_id))) := by
        simp only [List.filter_cons, hmem, Bool.not_true, Bool.false_eq_true,
          if_false]
      rw [hfila, hfilb, extendViews_push r rs views hnd]
    · rw [Bool.not_eq_true] at hmem
      have hnotin : r.order_id ∉ views.map (fun v => v.order_id) := by
        intro hin
        obtain ⟨v, hv, hveq⟩ := List.mem_map.mp hin
        have hany : views.any (fun v => v.order_id == r.order_id) = true :=
          List.any_eq_true.mpr ⟨v, hv, by simp [hveq]⟩
        rw [hany] at hmem
        cases hmem
      have hstep : groupStep mkCustomer parse (views, log) r =
          (views ++ [{ newView mkCustomer parse r with items := [rowItem r] }],
           if (parse r.shipping_address).isNone then log ++ [r.order_id]
           else log) := by
        unfold groupStep
        simp only [hmem, Bool.false_eq_true, if_false]
        rw [pushItem_append_new r.order_id (rowItem r) views
          (newView mkCustomer parse r) hmem rfl]
        rfl
      rw [hstep]
      have hnd2 : ((views ++
          [({ newView mkCustomer parse r with items := [rowItem r] }
            : OrderView α)]).map (·.order_id)).Nodup := by
        rw [List.map_append, List.nodup_append]
        refine ⟨hnd, by simp, ?_⟩
        intro x hx
        simp only [List.map_cons, List.map_nil, List.mem_singleton]
        intro hx2
        rw [show ({ newView mkCustomer parse r with items := [rowItem r] }
          : OrderView α).order_id = r.order_id from rfl] at hx2
        rw [hx2] at hx
        exact hnotin hx
      rw [ih _ _ hnd2]
      -- P is the not-yet-present predicate over the original views
      have hfilP : (r :: rs).filter (fun r2 =>
          !(views.any (fun v => v.order_id == r2.order_id))) =
          r :: rs.filter (fun r2 =>
            !(views.any (fun v => v.order_id == r2.order_id))) := by
        simp only [List.filter_cons, hmem, Bool.not_false, if_true]
      have hf3 : (rs.filter (fun r2 =>
          !(views.any (fun v => v.order_id == r2.order_id)))).filter
            (fun r2 => r2.order_id == r.order_id) =
          rs.filter (fun r2 => r2.order_id == r.order_id) := by
        rw [List.filter_filter]
        refine List.filter_congr (fun a _ => ?_)
        by_cases hq : a.order_id = r.order_id
        · simp [hq, hmem]
        · simp [hq]
      have hf4 : (rs.filter (fun r2 =>
          !(views.any (fun v => v.order_id == r2.order_id)))).filter
            (fun r2 => !(r2.order_id == r.order_id)) =
          rs.filter (fun r2 => !((views ++
            [({ newView mkCustomer parse r with items := [rowItem r] }
              : OrderView α)]).any (fun v => v.order_id == r2.order_id))) := by
        rw [List.filter_filter]
        refine List.filter_congr (fun a _ => ?_)
        simp only [List.any_append, List.any_cons, List.any_nil,
          Bool.or_false, Bool.not_or]
        rw [show ({ newView mkCustomer parse r with items := [rowItem r] }
          : OrderView α).order_id = r.order_id from rfl]
        rw [nat_beq_comm r.order_id a.order_id, Bool.and_comm]
      have hev : extendViews rs (views ++
          [({ newView mkCustomer parse r with items := [rowItem r] }
            : OrderView α)]) =
          extendViews rs views ++
            [({ newView mkCustomer parse r with
              items := rowItem r ::
                (rs.filter (fun r2 => r2.order_id == r.order_id)).map
                  rowItem } : OrderView α)] := by
        unfold extendViews
        rw [List.map_append]
        simp only [List.map_cons, List.map_nil]
        rfl
      rw [hfilP, groupRec, hf3, hf4, hev,
        extendViews_cons_nomatch r rs views hmem]
      rw [Prod.mk.injEq]
      constructor
      · simp [List.append_assoc]
      · cases hip : (parse r.shipping_address).isNone <;>
          simp [List.append_assoc]

/-- The grouping pass is the reference recursion. -/
theorem groupOrderRows_eq_groupRec {α : Type}
    (mkCustomer : JoinRow → Option Customer) (parse : String → Option α)
    (rows : List JoinRow) :
    groupOrderRows mkCustomer parse rows = groupRec mkCustomer parse rows := by
  unfold groupOrderRows
  rw [groupFold_eq mkCustomer parse rows [] [] (by simp)]
  simp [extendViews]

theorem find?_filter_of_imp {β : Type} (p q : β → Bool)
    (h : ∀ a, p a = true → q a = true) :
    ∀ l : List β, (l.filter q).find? p = l.find? p := by
  intro l
  induction l with
  | nil => rfl
  | cons a l ih =>
    by_cases hp : p a = true
    · simp [List.filter_cons, h a hp, List.find?_cons, hp]
    · rw [Bool.not_eq_true] at hp
      cases hq : q a
      · simp only [List.filter_cons, hq, Bool.false_eq_true, if_false]
        rw [ih, List.find?_cons, hp]
      · simp only [List.filter_cons, hq, if_true]
        rw [List.find?_cons, hp, List.find?_cons, hp]
        exact ih

theorem filter_filter_of_imp {β : Type} (p q : β → Bool)
    (h : ∀ a, p a = true → q a = true) (l : List β) :
    (l.filter q).filter p = l.filter p := by
  rw [List.filter_filter]
  refine List.filter_congr (fun a _ => ?_)
  by_cases hp : p a = true
  · simp [hp, h a hp]
  · rw [Bool.not_eq_true] at hp
    simp [hp]

theorem firstDedup_subset : ∀ l : List Nat, firstDedup l ⊆ l := by
  intro l
  induction l using firstDedup.induct with
  | case1 => simp [firstDedup]
  | case2 x xs ih =>
    rw [firstDedup]
    intro a ha
    rcases List.mem_cons.mp ha with h | h
    · exact h ▸ List.mem_cons_self x xs
    · exact List.mem_cons_of_mem x (List.mem_of_mem_filter (ih h))

theorem firstDedup_nodup : ∀ l : List Nat, (firstDedup l).Nodup := by
  intro l
  induction l using firstDedup.induct with
  | case1 => simp [firstDedup]
  | case2 x xs ih =>
    rw [firstDedup]
    rw [List.nodup_cons]
    refine ⟨?_, ih⟩
    intro hx
    have hmem := firstDedup_subset _ hx
    rw [List.mem_filter] at hmem
    simp at hmem

/-- The keys of the grouped views: the row order ids, first-occurrence
deduplicated. -/
theorem groupRec_ids {α : Type} (mkCustomer : JoinRow → Option Customer)
    (parse : String → Option α) :
    ∀ rows : List JoinRow,
      (groupRec mkCustomer parse rows).1.map (·.order_id) =
        firstDedup (rows.map (·.order_id)) := by
  intro rows
  induction rows using groupRec.induct mkCustomer parse with
  | case1 =>
    rw [groupRec]
    simp only [List.map_nil]
    rw [firstDedup.eq_def]
  | case2 r rs ih =>
    rw [groupRec]
    simp only [List.map_cons]
    rw [firstDedup]
    rw [List.cons_eq_cons]
    refine ⟨rfl, ?_⟩
    rw [ih]
    congr 1
    clear ih
    induction rs with
    | nil => rfl
    | cons a as iha =>
      by_cases ha : (a.order_id == r.order_id) = true
      · simp only [List.filter_cons, List.map_cons, ha, Bool.not_true,
          Bool.false_eq_true, if_false]
        exact iha
      · rw [Bool.not_eq_true] at ha
        simp only [List.filter_cons, List.map_cons, ha, Bool.not_false, if_true]
        rw [List.cons_eq_cons]
        exact ⟨rfl, iha⟩

/-- The view dates are a subsequence of the row dates. -/
theorem groupRec_dates_sublist {α : Type}
    (mkCustomer : JoinRow → Option Customer) (parse : String → Option α) :
    ∀ rows : List JoinRow,
      ((groupRec mkCustomer parse rows).1.map (·.order_date)).Sublist
        (rows.map (·.order_date)) := by
  intro rows
  induction rows using groupRec.induct mkCustomer parse with
  | case1 => rw [groupRec]; simp
  | case2 r rs ih =>
    rw [groupRec]
    simp only [List.map_cons]
    refine List.Sublist.cons₂ _ ?_
    exact ih.trans (List.Sublist.map _ (List.filter_sublist rs))

/-- Each produced view is determined by the first row of its order: all
header fields and the address parse come from that row, and `items`
collects every row of the order, in order. -/
theorem groupRec_views {α : Type} (mkCustomer : JoinRow → Option Customer)
    (parse : String → Option α) :
    ∀ rows : List JoinRow, ∀ v ∈ (groupRec mkCustomer parse rows).1,
      ∃ r, rows.find? (fun r2 => r2.order_id == v.order_id) = some r ∧
        v = { newView mkCustomer parse r with items :=
          (rows.filter (fun r2 => r2.order_id == r.order_id)).map rowItem } := by
  intro rows
  induction rows using groupRec.induct mkCustomer parse with
  | case1 => rw [groupRec]; intro v hv; simp at hv
  | case2 r rs ih =>
    rw [groupRec]
    intro v hv
    rcases List.mem_cons.mp hv with hv | hv
    · refine ⟨r, ?_, ?_⟩
      · rw [hv]
        rw [List.find?_cons]
        have : (r.order_id ==
            ({ newView mkCustomer parse r with items := rowItem r ::
              (rs.filter (fun r2 => r2.order_id == r.order_id)).map rowItem }
              : OrderView α).order_id) = true := by
          simp [newView]
        rw [this]
      · rw [hv]
        simp only [List.filter_cons, beq_self_eq_true, if_true, List.map_cons]
    · obtain ⟨r2, hfind, hchar⟩ := ih v hv
      have hr2mem : r2 ∈ rs.filter (fun a => !(a.order_id == r.order_id)) :=
        List.mem_of_find?_eq_some hfind
      have hr2pred0 := List.find?_some hfind
      have hr2pred : (r2.order_id == v.order_id) = true := by
        simpa using hr2pred0
      have hr2ne : (r2.order_id == r.order_id) = false := by
        have := (List.mem_filter.mp hr2mem).2
        simpa using this
      have hvne : (r.order_id == v.order_id) = false := by
        have h1 : r2.order_id = v.order_id := by simpa using hr2pred
        rw [nat_beq_comm]
        rw [← h1]
        exact hr2ne
      refine ⟨r2, ?_, ?_⟩
      · rw [List.find?_cons, hvne]
        rw [← hfind]
        exact (find?_filter_of_imp _ _ (fun a ha => by
          have h1 : a.order_id = v.order_id := by simpa using ha
          have h2 : r2.order_id = v.order_id := by simpa using hr2pred
          have : (a.order_id == r.order_id) = false := by
            rw [h1, ← h2]
            exact hr2ne
          simpa using this) rs).symm
      · rw [hchar]
        have hfil : (rs.filter (fun a => !(a.order_id == r.order_id))).filter
            (fun a => a.order_id == r2.order_id) =
            rs.filter (fun a => a.order_id == r2.order_id) :=
          filter_filter_of_imp _ _ (fun a ha => by
            have h1 : a.order_id = r2.order_id := by simpa using ha
            have : (a.order_id == r.order_id) = false := by
              rw [h1]
              exact hr2ne
            simpa using this) rs
        rw [hfil]
        have hrne2 : (r.order_id == r2.order_id) = false := by
          rw [nat_beq_comm]
          exact hr2ne
        simp only [List.filter_cons, hrne2, Bool.false_eq_true, if_false]

/-- A view whose address failed to parse has its order id in the
anomaly log. -/
theorem groupRec_log {α : Type} (mkCustomer : JoinRow → Option Customer)
    (parse : String → Option α) :
    ∀ rows : List JoinRow, ∀ v ∈ (groupRec mkCustomer parse rows).1,
      v.shipping_address = none →
      v.order_id ∈ (groupRec mkCustomer parse rows).2 := by
  intro rows
  induction rows using groupRec.induct mkCustomer parse with
  | case1 => rw [groupRec]; intro v hv; simp at hv
  | case2 r rs ih =>
    rw [groupRec]
    intro v hv hnone
    rcases List.mem_cons.mp hv with hv | hv
    · have hpn : (parse r.shipping_address).isNone = true := by
        rw [hv] at hnone
        simp only [newView] at hnone
        rw [Option.isNone_iff_eq_none]
        exact hnone
      rw [hpn]
      simp only [if_true]
      rw [hv]
      simp [newView]
    · have := ih v hv hnone
      exact List.mem_append_right _ this

/-- C9: both history readers group the flat joined rows into one view
per order keyed by `order_id` (keys are the first-occurrence
deduplication of the row keys, hence distinct), return the views in
order-date-descending order whenever the rows come so ordered (as the
SQL `ORDER BY` delivers them), take every header field and the address
parse from the order's first row — with `none` standing for the `null`
fallback on a parse failure, the order id then being logged — and give
each view all of its order's line items in row order. -/
theorem C9_history_grouping {α : Type} (parse : String → Option α)
    (rows : List JoinRow)
    (hsorted : rows.Pairwise (fun a b => b.order_date ≤ a.order_date)) :
    ((getUserOrders parse rows).1.map (·.order_id) =
        firstDedup (rows.map (·.order_id)) ∧
      ((getUserOrders parse rows).1.map (·.order_id)).Nodup ∧
      (getAllOrders parse rows).1.map (·.order_id) =
        firstDedup (rows.map (·.order_id))) ∧
    ((getUserOrders parse rows).1.Pairwise
        (fun a b => b.order_date ≤ a.order_date) ∧
      (getAllOrders parse rows).1.Pairwise
        (fun a b => b.order_date ≤ a.order_date)) ∧
    (∀ v ∈ (getUserOrders parse rows).1,
      ∃ r, rows.find? (fun r2 => r2.order_id == v.order_id) = some r ∧
        v = { newView userCustomer parse r with items :=
          (rows.filter (fun r2 => r2.order_id == r.order_id)).map rowItem }) ∧
    (∀ v ∈ (getAllOrders parse rows).1,
      ∃ r, rows.find? (fun r2 => r2.order_id == v.order_id) = some r ∧
        v = { newView adminCustomer parse r with items :=
          (rows.filter (fun r2 => r2.order_id == r.order_id)).map rowItem }) ∧
    (∀ v ∈ (getUserOrders parse rows).1, v.shipping_address = none →
      v.order_id ∈ (getUserOrders parse rows).2) ∧
    (∀ v ∈ (getAllOrders parse rows).1, v.shipping_address = none →
      v.order_id ∈ (getAllOrders parse rows).2) := by
  have hu := groupOrderRows_eq_groupRec userCustomer parse rows
  have ha := groupOrderRows_eq_groupRec adminCustomer parse rows
  have hdates : (rows.map (·.order_date)).Pairwise (fun a b => b ≤ a) :=
    List.pairwise_map.mpr hsorted
  refine ⟨⟨?_, ?_, ?_⟩, ⟨?_, ?_⟩, ?_, ?_, ?_, ?_⟩
  · unfold getUserOrders
    rw [hu, groupRec_ids]
  · unfold getUserOrders
    rw [hu, groupRec_ids]
    exact firstDedup_nodup _
  · unfold getAllOrders
    rw [ha, groupRec_ids]
  · unfold getUserOrders
    rw [hu]
    exact List.pairwise_map.mp
      (List.Pairwise.sublist (groupRec_dates_sublist userCustomer parse rows)
        hdates)
  · unfold getAllOrders
    rw [ha]
    exact List.pairwise_map.mp
      (List.Pairwise.sublist (groupRec_dates_sublist adminCustomer parse rows)
        hdates)
  · unfold getUserOrders
    rw [hu]
    exact groupRec_views userCustomer parse rows
  · unfold getAllOrders
    rw [ha]
    exact groupRec_views adminCustomer parse rows
  · unfold getUserOrders
    rw [hu]
    exact groupRec_log userCustomer parse rows
  · unfold getAllOrders
    rw [ha]
    exact groupRec_log adminCustomer parse rows

/-- Witness for C9: two orders, dates descending, second address
malformed. -/
theorem C9_history_grouping_witness :
    (getUserOrders (fun s => if s = "BAD" then none else some 0)
      [⟨5, 30, 100, "pending", "A", 1, 10, "p1", "i1", "", ""⟩,
       ⟨4, 20, 50, "pending", "BAD", 1, 5, "p3", "i3", "", ""⟩]).1.map
        (·.order_id) =
      firstDedup ([(⟨5, 30, 100, "pending", "A", 1, 10, "p1", "i1", "", ""⟩ :
          JoinRow),
        ⟨4, 20, 50, "pending", "BAD", 1, 5, "p3", "i3", "", ""⟩].map
          (·.order_id)) :=
  ((C9_history_grouping (fun s => if s = "BAD" then none else some 0)
    [⟨5, 30, 100, "pending", "A", 1, 10, "p1", "i1", "", ""⟩,
     ⟨4, 20, 50, "pending", "BAD", 1, 5, "p3", "i3", "", ""⟩]
    (by simp [List.pairwise_cons])).1).1

/-- Any order id appearing among the user-scoped join rows belongs to
an order of the user that still has an item with an existing
product. -/
theorem userJoin_oid_mem (db : DB) (userId oid : Nat)
    (h : oid ∈ (userOrderJoinRows db userId).map (·.order_id)) :
    ∃ o ∈ db.orders, o.id = oid ∧ o.user_id = userId ∧
      ∃ oi ∈ db.orderItems, oi.order_id = o.id ∧
        ∃ p ∈ db.products, p.id = oi.product_id := by
  obtain ⟨r, hr, hroid⟩ := List.mem_map.mp h
  unfold userOrderJoinRows at hr
  rw [List.mem_flatMap] at hr
  obtain ⟨o, ho, hr⟩ := hr
  rw [List.mem_flatMap] at hr
  obtain ⟨oi, hoi, hr⟩ := hr
  rw [List.mem_map] at hr
  obtain ⟨p, hp, hr⟩ := hr
  rw [List.mem_filter] at ho hoi hp
  have ho2 : o.user_id = userId := by simpa using ho.2
  have hoi2 : oi.order_id = o.id := by simpa using hoi.2
  have hp2 : p.id = oi.product_id := by simpa using hp.2
  refine ⟨o, ho.1, ?_, ho2, oi, hoi.1, hoi2, p, hp.1, hp2⟩
  rw [← hroid, ← hr]

/-- Same for the admin join. -/
theorem allJoin_oid_mem (db : DB) (oid : Nat)
    (h : oid ∈ (allOrderJoinRows db).map (·.order_id)) :
    ∃ o ∈ db.orders, o.id = oid ∧
      ∃ oi ∈ db.orderItems, oi.order_id = o.id ∧
        ∃ p ∈ db.products, p.id = oi.product_id := by
  obtain ⟨r, hr, hroid⟩ := List.mem_map.mp h
  unfold allOrderJoinRows at hr
  rw [List.mem_flatMap] at hr
  obtain ⟨o, ho, hr⟩ := hr
  rw [List.mem_flatMap] at hr
  obtain ⟨u, hu, hr⟩ := hr
  rw [List.mem_flatMap] at hr
  obtain ⟨oi, hoi, hr⟩ := hr
  rw [List.mem_map] at hr
  obtain ⟨p, hp, hr⟩ := hr
  rw [List.mem_filter] at hoi hp
  have hoi2 : oi.order_id = o.id := by simpa using hoi.2
  have hp2 : p.id = oi.product_id := by simpa using hp.2
  refine ⟨o, ho, ?_, oi, hoi.1, hoi2, p, hp.1, hp2⟩
  rw [← hroid, ← hr]

/-- Every key the readers output comes from the rows they were fed. -/
theorem reader_keys_subset {α : Type}
    (mkCustomer : JoinRow → Option Customer) (parse : String → Option α)
    (rows : List JoinRow) (oid : Nat)
    (h : oid ∈ (groupOrderRows mkCustomer parse rows).1.map (·.order_id)) :
    oid ∈ rows.map (·.order_id) := by
  rw [groupOrderRows_eq_groupRec, groupRec_ids] at h
  exact firstDedup_subset _ h

/-- C10 (implicit): the history readers use inner joins, so an order
none of whose line items references an existing product is entirely
absent from the output of both readers; conversely every returned order
id belongs to an order that still has a line item with a surviving
product. -/
theorem C10_lineless_orders_absent {α : Type} (parse : String → Option α)
    (db : DB) (userId : Nat) (rowsU rowsA : List JoinRow)
    (hU : rowsU.Perm (userOrderJoinRows db userId))
    (hA : rowsA.Perm (allOrderJoinRows db))
    (o : OrderRow) (ho : o ∈ db.orders)
    (hno : ∀ oi ∈ db.orderItems, oi.order_id = o.id →
      ¬ ∃ p ∈ db.products, p.id = oi.product_id) :
    o.id ∉ (getUserOrders parse rowsU).1.map (·.order_id) ∧
    o.id ∉ (getAllOrders parse rowsA).1.map (·.order_id) ∧
    (∀ oid ∈ (getUserOrders parse rowsU).1.map (·.order_id),
      ∃ o2 ∈ db.orders, o2.id = oid ∧ o2.user_id = userId ∧
        ∃ oi ∈ db.orderItems, oi.order_id = o2.id ∧
          ∃ p ∈ db.products, p.id = oi.product_id) ∧
    (∀ oid ∈ (getAllOrders parse rowsA).1.map (·.order_id),
      ∃ o2 ∈ db.orders, o2.id = oid ∧
        ∃ oi ∈ db.orderItems, oi.order_id = o2.id ∧
          ∃ p ∈ db.products, p.id = oi.product_id) := by
  have hkeyU : ∀ oid ∈ (getUserOrders parse rowsU).1.map (·.order_id),
      oid ∈ (userOrderJoinRows db userId).map (·.order_id) := by
    intro oid hk
    have := reader_keys_subset userCustomer parse rowsU oid hk
    exact ((hU.map (·.order_id)).mem_iff).mp this
  have hkeyA : ∀ oid ∈ (getAllOrders parse rowsA).1.map (·.order_id),
      oid ∈ (allOrderJoinRows db).map (·.order_id) := by
    intro oid hk
    have := reader_keys_subset adminCustomer parse rowsA oid hk
    exact ((hA.map (·.order_id)).mem_iff).mp this
  refine ⟨?_, ?_, ?_, ?_⟩
  · intro hmem
    obtain ⟨o2, _, ho2id, _, oi, hoi, hoio, p, hp, hpid⟩ :=
      userJoin_oid_mem db userId o.id (hkeyU o.id hmem)
    exact hno oi hoi (by rw [hoio, ho2id]) ⟨p, hp, hpid⟩
  · intro hmem
    obtain ⟨o2, _, ho2id, oi, hoi, hoio, p, hp, hpid⟩ :=
      allJoin_oid_mem db o.id (hkeyA o.id hmem)
    exact hno oi hoi (by rw [hoio, ho2id]) ⟨p, hp, hpid⟩
  · intro oid hk
    exact userJoin_oid_mem db userId oid (hkeyU oid hk)
  · intro oid hk
    exact allJoin_oid_mem db oid (hkeyA oid hk)

/-- Witness for C10: an order with no order items is absent from the
user history. -/
theorem C10_lineless_orders_absent_witness :
    (1 : Nat) ∉ (getUserOrders (fun _ => (some 0 : Option Nat))
      ([] : List JoinRow)).1.map (·.order_id) :=
  (C10_lineless_orders_absent (fun _ => (some 0 : Option Nat))
    ⟨[], [], [⟨1, 1, 20, "a", "pending", 0⟩], [], [], 2, 1⟩ 1 [] []
    (by decide) (by decide)
    ⟨1, 1, 20, "a", "pending", 0⟩ (by simp)
    (by intro oi h; simp at h)).1
